import Mathlib

/-!
Shallow embedding of the CAT admin tool issuance pipeline (`src/cmds.py`):
the program resolver, puzzle constructor, funding coordinator, genesis
spend builder and aggregator, together with theorems checking the
specification's claims against this embedding.

External collaborators (the puzzle-language runtime, the wallet RPC, the
signature scheme, the file system) are modelled as explicit parameters or
as deterministic stand-in functions, as noted on each definition.
-/

/-- CLVM values: an atom (a byte string, modelled as an integer) or a pair.
Programs and solutions are CLVM values. -/
inductive Clvm where
  | atom : Int → Clvm
  | pair : Clvm → Clvm → Clvm
deriving DecidableEq, Repr

/-- Build a proper CLVM list; nil is the empty atom `0`. -/
def toClvmList : List Clvm → Clvm
  | [] => Clvm.atom 0
  | x :: xs => Clvm.pair x (toClvmList xs)

/-- Numeric code of an integer atom. -/
def encInt : Int → Nat
  | .ofNat n => 2 * n
  | .negSucc n => 2 * n + 1

/-- Deterministic structural digest standing in for the externally computed
sha256 tree hash (`Program.get_tree_hash`). No theorem below relies on
collision resistance, only on determinism, which the model shares with the
real hash. -/
def get_tree_hash : Clvm → Nat
  | .atom i => 2 * encInt i
  | .pair l r => 2 * (get_tree_hash l + 2 * get_tree_hash r) + 1

/-- The argument chain built by `Program.curry`:
`(c (q . a1) (c (q . a2) ... 1))`. -/
def curry_args_clvm : List Clvm → Clvm
  | [] => Clvm.atom 1
  | a :: rest =>
      Clvm.pair (Clvm.atom 4)
        (Clvm.pair (Clvm.pair (Clvm.atom 1) a)
          (Clvm.pair (curry_args_clvm rest) (Clvm.atom 0)))

/-- `Program.curry` of the external runtime (used at cmds.py line 186):
`curry(P, a1, ..., an) = (a (q . P) (c (q . a1) (c ... 1)))`. -/
def Clvm.curry (p : Clvm) (args : List Clvm) : Clvm :=
  toClvmList [Clvm.atom 2, Clvm.pair (Clvm.atom 1) p, curry_args_clvm args]

/-- Decode an argument chain back to the list of curried arguments. -/
def uncurry_args : Clvm → Option (List Clvm)
  | Clvm.atom 1 => some []
  | Clvm.pair (Clvm.atom 4)
      (Clvm.pair (Clvm.pair (Clvm.atom 1) a) (Clvm.pair rest (Clvm.atom 0))) =>
      (uncurry_args rest).map (fun l => a :: l)
  | _ => none

/-- Decode a curried program back to the base program and its arguments,
in the order they were applied. -/
def Clvm.uncurry : Clvm → Option (Clvm × List Clvm)
  | Clvm.pair (Clvm.atom 2)
      (Clvm.pair (Clvm.pair (Clvm.atom 1) p) (Clvm.pair cargs (Clvm.atom 0))) =>
      (uncurry_args cargs).map (fun l => (p, l))
  | _ => none

/-- Failures surfaced by the pipeline (Python exceptions). -/
inductive PErr where
  | nameError : String → PErr
  | fileNotFound : String → PErr
  | indexError : PErr
  | valueError : String → PErr
deriving DecidableEq, Repr

/-- Equality of fallible results is decidable when both components are. -/
instance exceptDecEq {ε α : Type} [DecidableEq ε] [DecidableEq α] :
    DecidableEq (Except ε α) := fun x y =>
  match x, y with
  | .error a, .error b =>
      if h : a = b then isTrue (by rw [h]) else isFalse (by simp [h])
  | .error _, .ok _ => isFalse (by simp)
  | .ok _, .error _ => isFalse (by simp)
  | .ok a, .ok b =>
      if h : a = b then isTrue (by rw [h]) else isFalse (by simp [h])

/-- `parse_program`'s input is either an already resolved `Program` value or
a string. -/
inductive ProgramInput where
  | prog : Clvm → ProgramInput
  | str : String → ProgramInput

/-- Python `c in s` for a single-character needle. -/
def str_contains (s : String) (c : Char) : Bool :=
  s.data.any (fun x => x == c)

/-- Python regex class `\s`. -/
def isPySpace (c : Char) : Bool :=
  c == ' ' || c == '\t' || c == '\n' || c == '\r' || c == '\u000b' || c == '\u000c'

/-- Does the text start with `(mod` followed by a whitespace character? -/
def startsWithModWs : List Char → Bool
  | '(' :: 'm' :: 'o' :: 'd' :: c :: _ => isPySpace c
  | _ => false

/-- Python `re.compile(r"\(mod\s").search(text)`: some suffix of the text
starts with the pattern. -/
def hasModPattern : List Char → Bool
  | [] => false
  | c :: rest => startsWithModWs (c :: rest) || hasModPattern rest

/-- `parse_program` (cmds.py 58–79). The external collaborators — `assemble`
from `clvm_tools.binutils`, hex decoding `Program.from_bytes ∘
hexstr_to_bytes`, and the file system — are parameters. In the Chialisp
branch (line 73) the source evaluates `append_include(include)`, but
`append_include` is defined nowhere in the module and is not imported, so
Python raises `NameError` there before `compile_clvm_text` can run; the
branch is modelled accordingly. -/
def parse_program (assemble fromHex : String → Except PErr Clvm)
    (fs : String → Option String) (incl : List String)
    (program : ProgramInput) : Except PErr Clvm :=
  match program with
  | .prog p => .ok p
  | .str s =>
      if str_contains s '(' then assemble s
      else if !str_contains s '.' then fromHex s
      else
        match fs s with
        | none => .error (.fileNotFound s)
        | some filestring =>
            if str_contains filestring '(' then
              if hasModPattern filestring.data then
                .error (.nameError "append_include")
              else assemble filestring
            else fromHex filestring

/-- A coin record; the two 32-byte hash fields are modelled as numeric
digests. -/
structure Coin where
  parent_coin_info : Nat
  puzzle_hash : Nat
  amount : Nat
deriving DecidableEq, Repr

/-- `Coin.name()`: the sha256 digest of the three fields, modelled as a
deterministic numeric combination (no theorem relies on collision
resistance). -/
def Coin.name (c : Coin) : Nat :=
  2 * (c.parent_coin_info + 2 * (c.puzzle_hash + 2 * c.amount)) + 1

/-- A revealed puzzle plus solution consuming one coin. -/
structure CoinSpend where
  coin : Coin
  puzzle_reveal : Clvm
  solution : Clvm
deriving DecidableEq, Repr

/-- A transaction: an ordered sequence of coin spends plus one aggregated
signature. The signature type is any additive commutative monoid, as is the
G2 group of the external scheme. -/
structure SpendBundle (Sig : Type) where
  coin_spends : List CoinSpend
  aggregated_signature : Sig
deriving DecidableEq, Repr

/-- `AugSchemeMPL.aggregate`: group addition over signatures, the zero
signature being `G2Element()` (external signature-scheme collaborator). -/
def AugSchemeMPL.aggregate {Sig : Type} [AddCommMonoid Sig] (sigs : List Sig) : Sig :=
  sigs.sum

/-- `SpendBundle.aggregate`: concatenate the coin-spend sequences and
group-add the signatures. -/
def SpendBundle.aggregate {Sig : Type} [AddCommMonoid Sig]
    (bundles : List (SpendBundle Sig)) : SpendBundle Sig :=
  ⟨(bundles.map (fun b => b.coin_spends)).flatten,
   AugSchemeMPL.aggregate (bundles.map (fun b => b.aggregated_signature))⟩

/-- The wallet collaborator's response: a transaction record carrying a
spend bundle. -/
structure SignedTx (Sig : Type) where
  spend_bundle : SpendBundle Sig
deriving DecidableEq, Repr

/-- The `SpendableCC` descriptor built at cmds.py 218–225. -/
structure SpendableCC where
  coin : Coin
  limitations_program_hash : Nat
  inner_puzzle : Clvm
  lineage_proof : Clvm
  limitations_solution : Clvm
  limitations_program_reveal : Clvm
deriving DecidableEq, Repr

/-- The fixed CAT wrapper template `CC_MOD`, an external program constant
(its concrete code is irrelevant to every claim; only its hash enters the
construction). -/
def CC_MOD : Clvm := Clvm.atom 524

/-- `construct_cc_puzzle` of the external collaborator
`chia.wallet.cc_wallet.cc_utils`: curry the wrapper hash, the limitations
program hash, and the inner puzzle into `CC_MOD`. -/
def construct_cc_puzzle (mod_prog : Clvm) (limitations_program_hash : Nat)
    (inner_puzzle : Clvm) : Clvm :=
  Clvm.curry mod_prog
    [Clvm.atom (Int.ofNat (get_tree_hash mod_prog)),
     Clvm.atom (Int.ofNat limitations_program_hash), inner_puzzle]

/-- Modelled from the spec §4.4: the genesis spend's solution layout (the
exact layout lives in the external `cc_utils`; the claims depend only on
the produced bundle's coin and signature). -/
def cc_spend_solution (s : SpendableCC) : Clvm :=
  toClvmList [s.lineage_proof, s.limitations_program_reveal, s.limitations_solution]

/-- `unsigned_spend_bundle_for_spendable_ccs` (external `cc_utils`,
modelled from the spec §4.4): one coin spend per spendable asset, revealing
the wrapped puzzle, with the zero (absent) signature. -/
def unsigned_spend_bundle_for_spendable_ccs {Sig : Type} [AddCommMonoid Sig]
    (mod_prog : Clvm) (sccs : List SpendableCC) : SpendBundle Sig :=
  ⟨sccs.map (fun s =>
      ⟨s.coin, construct_cc_puzzle mod_prog s.limitations_program_hash s.inner_puzzle,
       cc_spend_solution s⟩), 0⟩

/-- The inner puzzle of cmds.py 191–193: the quoted program
`(1 . ((51 0 -113 curried_tail solution) (51 address amount)))`. -/
def p2_puzzle (curried_tail solution : Clvm) (address : Nat) (amount : Int) : Clvm :=
  Clvm.pair (Clvm.atom 1)
    (toClvmList
      [toClvmList [Clvm.atom 51, Clvm.atom 0, Clvm.atom (-113), curried_tail, solution],
       toClvmList [Clvm.atom 51, Clvm.atom (Int.ofNat address), Clvm.atom amount]])

/-- The external collaborators of spec §6 as explicit functions: program
assembly and hex decoding, the file system, address decoding, signature and
bundle decoding, the wallet RPC, and the runtime's additions/removals
computation on a bundle. -/
structure Externals (Sig : Type) where
  assemble : String → Except PErr Clvm
  fromHex : String → Except PErr Clvm
  fs : String → Option String
  decode_puzzle_hash : String → Except PErr Nat
  sig_from_hex : String → Except PErr Sig
  bundle_from_hex : String → Except PErr (SpendBundle Sig)
  wallet : Nat → Int → Int → Except PErr (SignedTx Sig)
  additions : SpendBundle Sig → List Coin
  removals : SpendBundle Sig → List Coin

/-- The values of cmds.py 167–182 after parsing and decoding. -/
structure ParsedInputs (Sig : Type) where
  tail : Clvm
  curried_args : List Clvm
  solution : Clvm
  address : Nat
  sigs : List Sig
  bundles : List (SpendBundle Sig)

/-- Replace only the decoded extra-signature list. -/
def ParsedInputs.withSigs {Sig : Type} (pi : ParsedInputs Sig) (s : List Sig) :
    ParsedInputs Sig :=
  ⟨pi.tail, pi.curried_args, pi.solution, pi.address, s, pi.bundles⟩

/-- Sequence a fallible decode over a list, stopping at the first failure
(Python loop / list-comprehension semantics). -/
def mapExcept {α β : Type} (f : α → Except PErr β) : List α → Except PErr (List β)
  | [] => .ok []
  | a :: rest =>
      match f a with
      | .error e => .error e
      | .ok b =>
          match mapExcept f rest with
          | .error e => .error e
          | .ok bs => .ok (b :: bs)

/-- cmds.py 167–182: resolve the TAIL, assemble each curry argument, resolve
the solution, decode the destination address, decode the extra signatures
and extra spend bundles, in source order; any failure aborts. -/
def parse_inputs {Sig : Type} (E : Externals Sig) (tail : ProgramInput)
    (curry : List String) (solution : ProgramInput) (send_to : String)
    (signature : List String) (spend : List String) :
    Except PErr (ParsedInputs Sig) :=
  match parse_program E.assemble E.fromHex E.fs [] tail with
  | .error e => .error e
  | .ok t =>
    match mapExcept E.assemble curry with
    | .error e => .error e
    | .ok args =>
      match parse_program E.assemble E.fromHex E.fs [] solution with
      | .error e => .error e
      | .ok sol =>
        match E.decode_puzzle_hash send_to with
        | .error e => .error e
        | .ok addr =>
          match mapExcept E.sig_from_hex signature with
          | .error e => .error e
          | .ok sigs =>
            match mapExcept E.bundle_from_hex spend with
            | .error e => .error e
            | .ok bundles => .ok ⟨t, args, sol, addr, sigs, bundles⟩

/-- cmds.py 185–188: curry the arguments into the TAIL; zero arguments leave
it unchanged. -/
def construct_tail (tail : Clvm) (curried_args : List Clvm) : Clvm :=
  if curried_args.length > 0 then Clvm.curry tail curried_args else tail

/-- The curried TAIL of a parsed run. -/
def curried_tail_of {Sig : Type} (pi : ParsedInputs Sig) : Clvm :=
  construct_tail pi.tail pi.curried_args

/-- The inner puzzle of a parsed run. -/
def p2_puzzle_of {Sig : Type} (pi : ParsedInputs Sig) (amount : Int) : Clvm :=
  p2_puzzle (curried_tail_of pi) pi.solution pi.address amount

/-- cmds.py 196–197: the wrapped (CAT) puzzle hash the funding transaction
pays to. -/
def cat_ph_of {Sig : Type} (pi : ParsedInputs Sig) (amount : Int) : Nat :=
  get_tree_hash
    (construct_cc_puzzle CC_MOD (get_tree_hash (curried_tail_of pi))
      (p2_puzzle_of pi amount))

/-- cmds.py 218–226: the genesis (eve) spend bundle. -/
def eve_spend_of {Sig : Type} [AddCommMonoid Sig] (pi : ParsedInputs Sig)
    (amount : Int) (eve_coin : Coin) : SpendBundle Sig :=
  unsigned_spend_bundle_for_spendable_ccs CC_MOD
    [⟨eve_coin, get_tree_hash (curried_tail_of pi), p2_puzzle_of pi amount,
      toClvmList [], pi.solution, curried_tail_of pi⟩]

/-- cmds.py 172–176: fold every supplied signature into the zero signature
via pairwise aggregation. -/
def aggregated_signature_of {Sig : Type} [AddCommMonoid Sig] (sigs : List Sig) : Sig :=
  sigs.foldl (fun acc s => AugSchemeMPL.aggregate [acc, s]) 0

/-- cmds.py 178–182: fold every supplied spend bundle into the empty bundle
via pairwise aggregation. -/
def aggregated_spend_of {Sig : Type} [AddCommMonoid Sig]
    (bundles : List (SpendBundle Sig)) : SpendBundle Sig :=
  bundles.foldl (fun acc b => SpendBundle.aggregate [acc, b]) ⟨[], 0⟩

/-- The pipeline's terminal artifact: in select-coin mode the selected
funding coin, otherwise the asset id together with the final spend bundle. -/
inductive CliOutput (Sig : Type) where
  | selected_coin : Coin → CliOutput Sig
  | issued : Nat → SpendBundle Sig → CliOutput Sig
deriving DecidableEq, Repr

/-- cmds.py 184–244 after input parsing: construct the puzzles, call the
wallet, take element 0 of the filtered additions as the eve coin (Python
raises IndexError when the filter result is empty and silently takes the
first element otherwise), optionally early-exit with the matching funding
coin from the removals, else build the genesis spend and aggregate the
final bundle. The `as_bytes` presenter branch (238–241) only re-encodes the
bundle for printing and is not modelled. -/
def cli_core {Sig : Type} [AddCommMonoid Sig] (E : Externals Sig)
    (pi : ParsedInputs Sig) (amount fee : Int) (select_coin : Bool) :
    Except PErr (CliOutput Sig) :=
  match E.wallet (cat_ph_of pi amount) amount fee with
  | .error e => .error e
  | .ok signed_tx =>
    match (E.additions signed_tx.spend_bundle).filter
        (fun c => c.puzzle_hash == cat_ph_of pi amount) with
    | [] => .error .indexError
    | eve_coin :: _ =>
      if select_coin then
        match (E.removals signed_tx.spend_bundle).filter
            (fun c => Coin.name c == eve_coin.parent_coin_info) with
        | [] => .error .indexError
        | primary_coin :: _ => .ok (.selected_coin primary_coin)
      else
        .ok (.issued (get_tree_hash (curried_tail_of pi))
          (SpendBundle.aggregate
            [signed_tx.spend_bundle, eve_spend_of pi amount eve_coin,
             aggregated_spend_of pi.bundles,
             ⟨[], aggregated_signature_of pi.sigs⟩]))

/-- The whole `cli` command (cmds.py 152–244). The `as_bytes` flag selects
only the output encoding of the presenter and does not change the bundle. -/
def cli {Sig : Type} [AddCommMonoid Sig] (E : Externals Sig) (tail : ProgramInput)
    (curry : List String) (solution : ProgramInput) (send_to : String)
    (amount fee : Int) (signature spend : List String)
    (as_bytes select_coin : Bool) : Except PErr (CliOutput Sig) :=
  match parse_inputs E tail curry solution send_to signature spend with
  | .error e => .error e
  | .ok pi => cli_core E pi amount fee select_coin

/-- The asset id printed at cmds.py 243, when the run issues. -/
def issued_asset_id {Sig : Type} : Except PErr (CliOutput Sig) → Option Nat
  | .ok (.issued aid _) => some aid
  | _ => none

/-- The final bundle's coin-spend sequence, when the run issues. -/
def issued_coin_spends {Sig : Type} :
    Except PErr (CliOutput Sig) → Option (List CoinSpend)
  | .ok (.issued _ fb) => some fb.coin_spends
  | _ => none

/-- The asset id as a function of the TAIL and the curry arguments alone
(cmds.py 167–168, 184–188 and 243). -/
def asset_id {Sig : Type} (E : Externals Sig) (tail : ProgramInput)
    (curry : List String) : Except PErr Nat :=
  match parse_program E.assemble E.fromHex E.fs [] tail with
  | .error e => .error e
  | .ok t =>
    match mapExcept E.assemble curry with
    | .error e => .error e
    | .ok args => .ok (get_tree_hash (construct_tail t args))

/-- Demonstration assembler: returns an atom coding the source's length, so
routing to it is observable in results. -/
def demoAssemble : String → Except PErr Clvm :=
  fun s => .ok (Clvm.atom (Int.ofNat s.data.length))

/-- Demonstration hex decoder: returns a pair coding the input's length, a
shape distinct from `demoAssemble`'s results. -/
def demoFromHex : String → Except PErr Clvm :=
  fun s => .ok (Clvm.pair (Clvm.atom 0) (Clvm.atom (Int.ofNat s.data.length)))

/-- Demonstration file system with one Chialisp file, one CLVM source file
and one hex file. -/
def demoFs : String → Option String :=
  fun s =>
    if s = "tail.clsp" then some "(mod (X) X)"
    else if s = "tail.clvm" then some "(q . 1)"
    else if s = "tail.hex" then some "ff01ff02"
    else none

/-- Demonstration collaborators over integer signatures: the wallet embeds a
coin paying the requested puzzle hash into its bundle, and `additions` reads
the created coins back off the bundle it is given. -/
def demoE : Externals Int :=
  ⟨demoAssemble, demoFromHex, demoFs,
   fun s => .ok s.data.length,
   fun s => .ok (Int.ofNat s.data.length),
   fun _ => .ok ⟨[], 0⟩,
   fun ph amount _fee => .ok ⟨⟨[⟨⟨0, ph, amount.toNat⟩, Clvm.atom 0, Clvm.atom 0⟩], 0⟩⟩,
   fun b => b.coin_spends.map (fun cs => cs.coin),
   fun b => b.coin_spends.map (fun cs => cs.coin)⟩

/-- Decode a proper CLVM list back to a Lean list (nil atom terminates). -/
def clvm_to_list : Clvm → Option (List Clvm)
  | .atom 0 => some []
  | .atom _ => none
  | .pair h t => (clvm_to_list t).map (fun l => h :: l)

/-- The body of a quoted program `(1 . body)`. -/
def quoted_body : Clvm → Option Clvm
  | .pair (.atom 1) b => some b
  | _ => none

theorem uncurry_args_curry_args (l : List Clvm) :
    uncurry_args (curry_args_clvm l) = some l := by
  induction l with
  | nil => rfl
  | cons a t ih => simp [curry_args_clvm, uncurry_args, ih]

theorem uncurry_curry (p : Clvm) (args : List Clvm) :
    Clvm.uncurry (Clvm.curry p args) = some (p, args) := by
  simp [Clvm.curry, toClvmList, Clvm.uncurry, uncurry_args_curry_args]

theorem foldl_aggregate_eq_sum {Sig : Type} [AddCommMonoid Sig]
    (l : List Sig) : ∀ (init : Sig),
    l.foldl (fun acc s => AugSchemeMPL.aggregate [acc, s]) init = init + l.sum := by
  induction l with
  | nil => intro init; simp
  | cons a t ih =>
      intro init
      show List.foldl (fun acc s => AugSchemeMPL.aggregate [acc, s])
          (AugSchemeMPL.aggregate [init, a]) t = init + (a :: t).sum
      rw [ih]
      simp [AugSchemeMPL.aggregate, add_assoc]

theorem aggregated_signature_of_eq_sum {Sig : Type} [AddCommMonoid Sig]
    (l : List Sig) : aggregated_signature_of l = l.sum := by
  simpa using foldl_aggregate_eq_sum l 0

theorem cli_core_issued_aid {Sig : Type} [AddCommMonoid Sig] (E : Externals Sig)
    (pi : ParsedInputs Sig) (amount fee : Int) (aid : Nat) (fb : SpendBundle Sig)
    (h : cli_core E pi amount fee false = .ok (.issued aid fb)) :
    aid = get_tree_hash (curried_tail_of pi) := by
  unfold cli_core at h
  cases hw : E.wallet (cat_ph_of pi amount) amount fee with
  | error e => rw [hw] at h; cases h
  | ok st =>
      rw [hw] at h
      dsimp only at h
      cases hf : (E.additions st.spend_bundle).filter
          (fun c => c.puzzle_hash == cat_ph_of pi amount) with
      | nil => rw [hf] at h; cases h
      | cons eve rest =>
          rw [hf] at h
          simp only [Bool.false_eq_true, if_false, Except.ok.injEq,
            CliOutput.issued.injEq] at h
          exact h.1.symm

theorem parse_inputs_asset_id {Sig : Type} (E : Externals Sig)
    (tail : ProgramInput) (curry : List String) (solution : ProgramInput)
    (send_to : String) (signature spend : List String) (pi : ParsedInputs Sig)
    (h : parse_inputs E tail curry solution send_to signature spend = .ok pi) :
    asset_id E tail curry = .ok (get_tree_hash (curried_tail_of pi)) := by
  unfold parse_inputs at h
  cases hp : parse_program E.assemble E.fromHex E.fs [] tail with
  | error e => rw [hp] at h; cases h
  | ok t =>
  rw [hp] at h
  cases hc : mapExcept E.assemble curry with
  | error e => rw [hc] at h; cases h
  | ok args =>
  rw [hc] at h
  cases hs : parse_program E.assemble E.fromHex E.fs [] solution with
  | error e => rw [hs] at h; cases h
  | ok sol =>
  rw [hs] at h
  cases ha : E.decode_puzzle_hash send_to with
  | error e => rw [ha] at h; cases h
  | ok addr =>
  rw [ha] at h
  cases hg : mapExcept E.sig_from_hex signature with
  | error e => rw [hg] at h; cases h
  | ok sigs =>
  rw [hg] at h
  cases hb : mapExcept E.bundle_from_hex spend with
  | error e => rw [hb] at h; cases h
  | ok bundles =>
  rw [hb] at h
  simp only [Except.ok.injEq] at h
  subst h
  simp [asset_id, hp, hc, curried_tail_of]

theorem cli_issue_asset_id {Sig : Type} [AddCommMonoid Sig] (E : Externals Sig)
    (tail : ProgramInput) (curry : List String) (solution : ProgramInput)
    (send_to : String) (amount fee : Int) (signature spend : List String)
    (as_bytes : Bool)
    (hs : (issued_asset_id
      (cli E tail curry solution send_to amount fee signature spend as_bytes false)).isSome
        = true) :
    issued_asset_id
        (cli E tail curry solution send_to amount fee signature spend as_bytes false)
      = (asset_id E tail curry).toOption := by
  unfold cli at hs ⊢
  cases hpi : parse_inputs E tail curry solution send_to signature spend with
  | error e => rw [hpi] at hs; simp [issued_asset_id] at hs
  | ok pi =>
      rw [hpi] at hs
      dsimp only at hs ⊢
      cases hc : cli_core E pi amount fee false with
      | error e => rw [hc] at hs; simp [issued_asset_id] at hs
      | ok out =>
          rw [hc] at hs
          cases out with
          | selected_coin c => simp [issued_asset_id] at hs
          | issued aid fb =>
              rw [parse_inputs_asset_id E tail curry solution send_to signature spend pi hpi]
              rw [cli_core_issued_aid E pi amount fee aid fb hc]
              simp [issued_asset_id, Except.toOption]

/-- Claim C5. For every curried TAIL, destination puzzle hash, amount and TAIL
solution, the inner puzzle is the quoted program whose body is the
two-element condition list: first the sentinel condition
`(51 0 -113 curried_tail solution)` (opcode 51, amount field the reserved
sentinel `-113`, referencing the curried TAIL and its solution), second the
coin-creation condition `(51 address amount)`. The construction is a pure
function of its four arguments. -/
theorem inner_puzzle_two_conditions (t s : Clvm) (addr : Nat) (amt : Int) :
    (quoted_body (p2_puzzle t s addr amt)).bind clvm_to_list
      = some [toClvmList [Clvm.atom 51, Clvm.atom 0, Clvm.atom (-113), t, s],
              toClvmList [Clvm.atom 51, Clvm.atom (Int.ofNat addr), Clvm.atom amt]]
    ∧ clvm_to_list (toClvmList [Clvm.atom 51, Clvm.atom 0, Clvm.atom (-113), t, s])
      = some [Clvm.atom 51, Clvm.atom 0, Clvm.atom (-113), t, s]
    ∧ clvm_to_list (toClvmList [Clvm.atom 51, Clvm.atom (Int.ofNat addr), Clvm.atom amt])
      = some [Clvm.atom 51, Clvm.atom (Int.ofNat addr), Clvm.atom amt] := by
  refine ⟨?_, ?_, ?_⟩ <;> simp [p2_puzzle, quoted_body, toClvmList, clvm_to_list]

/-- Claim C6. Currying zero arguments into the resolved TAIL is the identity, and
for a non-empty argument sequence the construction applies `Program.curry`
to the arguments in the order supplied: decoding the curried program
recovers the base TAIL and the argument list in that order. -/
theorem construct_tail_identity_and_order (tail : Clvm) (args : List Clvm)
    (h : args ≠ []) :
    construct_tail tail [] = tail
    ∧ construct_tail tail args = Clvm.curry tail args
    ∧ Clvm.uncurry (construct_tail tail args) = some (tail, args) := by
  have hpos : 0 < args.length := List.length_pos.mpr h
  have hc : construct_tail tail args = Clvm.curry tail args := by
    unfold construct_tail
    exact if_pos hpos
  exact ⟨rfl, hc, by rw [hc, uncurry_curry]⟩

/-- Witness for C6 at a concrete TAIL and two concrete curry arguments. -/
theorem construct_tail_identity_and_order_witness :
    ([Clvm.atom 7, Clvm.atom 8] ≠ ([] : List Clvm))
    ∧ Clvm.uncurry (construct_tail (Clvm.atom 5) [Clvm.atom 7, Clvm.atom 8])
        = some (Clvm.atom 5, [Clvm.atom 7, Clvm.atom 8]) :=
  ⟨by decide,
   (construct_tail_identity_and_order (Clvm.atom 5) [Clvm.atom 7, Clvm.atom 8]
     (by decide)).2.2⟩

/-- Claim C7. The aggregated extra signature is the fold of the supplied
signatures into the group-zero signature via group addition (it equals the
group sum of the list), and it is invariant under every permutation of the
supplied list. -/
theorem aggregated_signature_perm_invariant {Sig : Type} [AddCommMonoid Sig]
    (l1 l2 : List Sig) (h : l1.Perm l2) :
    aggregated_signature_of l1 = aggregated_signature_of l2
    ∧ aggregated_signature_of l1 = l1.sum := by
  have e1 := aggregated_signature_of_eq_sum l1
  have e2 := aggregated_signature_of_eq_sum l2
  exact ⟨by rw [e1, e2, h.sum_eq], e1⟩

/-- Witness for C7 on concrete integer signatures. -/
theorem aggregated_signature_perm_invariant_witness :
    ([1, 2, 3] : List Int).Perm [3, 1, 2]
    ∧ aggregated_signature_of ([1, 2, 3] : List Int)
        = aggregated_signature_of [3, 1, 2] :=
  ⟨by decide, (aggregated_signature_perm_invariant [1, 2, 3] [3, 1, 2] (by decide)).1⟩

/-- Claim C2. For every TAIL and curry-argument sequence, whenever a run reaches
the issuance output, the printed asset id equals the tree hash of the
curried TAIL (the value of `asset_id`, a function of the TAIL and curry
arguments alone), so two issuing runs with the same TAIL and curry
arguments but different destination, amount, fee, extra signatures, extra
bundles or output mode print the same asset id. -/
theorem asset_id_deterministic {Sig : Type} [AddCommMonoid Sig] (E : Externals Sig)
    (tail : ProgramInput) (curry : List String) (solution : ProgramInput)
    (st1 st2 : String) (a1 a2 f1 f2 : Int) (sg1 sg2 sp1 sp2 : List String)
    (b1 b2 : Bool)
    (h1 : (issued_asset_id
      (cli E tail curry solution st1 a1 f1 sg1 sp1 b1 false)).isSome = true)
    (h2 : (issued_asset_id
      (cli E tail curry solution st2 a2 f2 sg2 sp2 b2 false)).isSome = true) :
    issued_asset_id (cli E tail curry solution st1 a1 f1 sg1 sp1 b1 false)
      = (asset_id E tail curry).toOption
    ∧ issued_asset_id (cli E tail curry solution st1 a1 f1 sg1 sp1 b1 false)
      = issued_asset_id (cli E tail curry solution st2 a2 f2 sg2 sp2 b2 false) := by
  have e1 := cli_issue_asset_id E tail curry solution st1 a1 f1 sg1 sp1 b1 h1
  have e2 := cli_issue_asset_id E tail curry solution st2 a2 f2 sg2 sp2 b2 h2
  exact ⟨e1, e1.trans e2.symm⟩

/-- Witness for C2: two demonstration runs differing in destination, amount
and fee. -/
theorem asset_id_deterministic_witness :
    (issued_asset_id (cli demoE (.prog (Clvm.atom 1)) ["ca"] (.prog (Clvm.atom 0))
        "addr1" 100 0 [] [] false false)).isSome = true
    ∧ (issued_asset_id (cli demoE (.prog (Clvm.atom 1)) ["ca"] (.prog (Clvm.atom 0))
        "addr22" 200 7 [] [] false false)).isSome = true
    ∧ issued_asset_id (cli demoE (.prog (Clvm.atom 1)) ["ca"] (.prog (Clvm.atom 0))
        "addr1" 100 0 [] [] false false)
      = issued_asset_id (cli demoE (.prog (Clvm.atom 1)) ["ca"] (.prog (Clvm.atom 0))
        "addr22" 200 7 [] [] false false) :=
  ⟨by decide, by decide,
   (asset_id_deterministic demoE (.prog (Clvm.atom 1)) ["ca"] (.prog (Clvm.atom 0))
     "addr1" "addr22" 100 200 0 7 [] [] [] [] false false
     (by decide) (by decide)).2⟩

/-- Claim C3. The resolver's dispatch evaluated on one input per branch: an
already resolved program is returned unchanged; a string with `(` goes to
the assembler; a string without `(` and without `.` goes to the hex
decoder; a file whose contents contain `(` but no `(mod ` pattern goes to
the assembler; a file without `(` goes to the hex decoder. The divergence
from the claim: a file whose contents match the `(mod ` module pattern does
not get compiled as high-level source — the source evaluates
`append_include(include)`, an undefined name, so the run dies with a
`NameError` instead of producing a program. -/
theorem parse_program_dispatch_and_compile_bug :
    parse_program demoAssemble demoFromHex demoFs [] (.prog (Clvm.atom 7))
      = .ok (Clvm.atom 7)
    ∧ parse_program demoAssemble demoFromHex demoFs [] (.str "(q . 1)")
      = demoAssemble "(q . 1)"
    ∧ parse_program demoAssemble demoFromHex demoFs [] (.str "ff01")
      = demoFromHex "ff01"
    ∧ parse_program demoAssemble demoFromHex demoFs [] (.str "tail.clsp")
      = .error (.nameError "append_include")
    ∧ parse_program demoAssemble demoFromHex demoFs [] (.str "tail.clvm")
      = demoAssemble "(q . 1)"
    ∧ parse_program demoAssemble demoFromHex demoFs [] (.str "tail.hex")
      = demoFromHex "ff01ff02" := by
  refine ⟨rfl, rfl, rfl, rfl, rfl, rfl⟩

/-- Claim C9. For every file input routed to the file branch (no `(` and a `.` in
the path string) whose contents contain `(` and match the `(mod ` module
pattern, `parse_program` raises the `NameError` for the undefined
`append_include` instead of returning a compiled program, whatever the
collaborators and include hints are: the high-level-compile branch can
never succeed. -/
theorem compile_branch_always_raises
    (assemble fromHex : String → Except PErr Clvm) (fs : String → Option String)
    (incl : List String) (s contents : String)
    (h1 : str_contains s '(' = false) (h2 : str_contains s '.' = true)
    (h3 : fs s = some contents) (h4 : str_contains contents '(' = true)
    (h5 : hasModPattern contents.data = true) :
    parse_program assemble fromHex fs incl (.str s)
      = .error (.nameError "append_include") := by
  unfold parse_program
  simp [h1, h2, h3, h4, h5]

/-- Witness for C9: the demonstration Chialisp file. -/
theorem compile_branch_always_raises_witness :
    (str_contains "tail.clsp" '(' = false ∧ str_contains "tail.clsp" '.' = true
      ∧ demoFs "tail.clsp" = some "(mod (X) X)"
      ∧ str_contains "(mod (X) X)" '(' = true
      ∧ hasModPattern "(mod (X) X)".data = true)
    ∧ parse_program demoAssemble demoFromHex demoFs [] (.str "tail.clsp")
      = .error (.nameError "append_include") :=
  ⟨⟨by decide, by decide, by decide, by decide, by decide⟩,
   compile_branch_always_raises demoAssemble demoFromHex demoFs [] "tail.clsp"
     "(mod (X) X)" (by decide) (by decide) (by decide) (by decide) (by decide)⟩

/-- Claim C10. Changing the supplied extra signatures changes only the signature
component of the pipeline's result: with every other parsed input, the
amount, the fee and the mode fixed, the final bundle's coin-spend sequence
is the same for any two extra-signature lists (the folded extra signature
enters aggregation inside a bundle whose coin-spend sequence is empty). -/
theorem extra_signatures_only_affect_signature {Sig : Type} [AddCommMonoid Sig]
    (E : Externals Sig) (pi : ParsedInputs Sig) (amount fee : Int)
    (sigs1 sigs2 : List Sig) (sc : Bool) :
    issued_coin_spends (cli_core E (pi.withSigs sigs1) amount fee sc)
      = issued_coin_spends (cli_core E (pi.withSigs sigs2) amount fee sc) := by
  obtain ⟨t, args, sol, addr, sigs0, bundles⟩ := pi
  simp only [ParsedInputs.withSigs]
  have hcat : cat_ph_of (⟨t, args, sol, addr, sigs2, bundles⟩ : ParsedInputs Sig) amount
      = cat_ph_of (⟨t, args, sol, addr, sigs1, bundles⟩ : ParsedInputs Sig) amount := rfl
  have hcur : curried_tail_of (⟨t, args, sol, addr, sigs2, bundles⟩ : ParsedInputs Sig)
      = curried_tail_of (⟨t, args, sol, addr, sigs1, bundles⟩ : ParsedInputs Sig) := rfl
  have heve : ∀ c : Coin,
      eve_spend_of (⟨t, args, sol, addr, sigs2, bundles⟩ : ParsedInputs Sig) amount c
        = eve_spend_of (⟨t, args, sol, addr, sigs1, bundles⟩ : ParsedInputs Sig) amount c :=
    fun _ => rfl
  unfold cli_core
  simp only [hcat, hcur, heve]
  cases hw : E.wallet
      (cat_ph_of (⟨t, args, sol, addr, sigs1, bundles⟩ : ParsedInputs Sig) amount)
      amount fee with
  | error e => rfl
  | ok st =>
      dsimp only
      cases hf : (E.additions st.spend_bundle).filter
          (fun c => c.puzzle_hash
            == cat_ph_of (⟨t, args, sol, addr, sigs1, bundles⟩ : ParsedInputs Sig) amount) with
      | nil => rfl
      | cons eve rest =>
          dsimp only
          cases sc with
          | true => rfl
          | false =>
              simp [issued_coin_spends, SpendBundle.aggregate, AugSchemeMPL.aggregate]

/-- Claim C4. Whenever the wallet call succeeds and the additions filter finds an
eve coin, the run's final bundle is the bundle-aggregation of exactly four
operands — the funding transaction's bundle, the genesis (eve) bundle, the
fold of the extra bundles, and a synthetic bundle with no coin spends
carrying the folded extra signature — and that aggregation concatenates the
coin-spend sequences and group-adds the signatures. -/
theorem final_bundle_four_operands {Sig : Type} [AddCommMonoid Sig]
    (E : Externals Sig) (pi : ParsedInputs Sig) (amount fee : Int)
    (st : SignedTx Sig) (eve : Coin) (rest : List Coin)
    (hw : E.wallet (cat_ph_of pi amount) amount fee = .ok st)
    (hf : (E.additions st.spend_bundle).filter
        (fun c => c.puzzle_hash == cat_ph_of pi amount) = eve :: rest) :
    cli_core E pi amount fee false
      = .ok (.issued (get_tree_hash (curried_tail_of pi))
          (SpendBundle.aggregate
            [st.spend_bundle, eve_spend_of pi amount eve,
             aggregated_spend_of pi.bundles, ⟨[], aggregated_signature_of pi.sigs⟩]))
    ∧ (SpendBundle.aggregate
        [st.spend_bundle, eve_spend_of pi amount eve,
         aggregated_spend_of pi.bundles,
         ⟨[], aggregated_signature_of pi.sigs⟩]).coin_spends
      = st.spend_bundle.coin_spends
        ++ (eve_spend_of pi amount eve : SpendBundle Sig).coin_spends
        ++ (aggregated_spend_of pi.bundles).coin_spends
    ∧ (SpendBundle.aggregate
        [st.spend_bundle, eve_spend_of pi amount eve,
         aggregated_spend_of pi.bundles,
         ⟨[], aggregated_signature_of pi.sigs⟩]).aggregated_signature
      = st.spend_bundle.aggregated_signature
        + (eve_spend_of pi amount eve : SpendBundle Sig).aggregated_signature
        + (aggregated_spend_of pi.bundles).aggregated_signature
        + aggregated_signature_of pi.sigs := by
  refine ⟨?_, ?_, ?_⟩
  · unfold cli_core
    rw [hw]
    dsimp only
    rw [hf]
    rfl
  · simp [SpendBundle.aggregate, AugSchemeMPL.aggregate, List.append_assoc]
  · simp [SpendBundle.aggregate, AugSchemeMPL.aggregate, add_assoc]

/-- Demonstration parsed inputs exercising curry arguments, extra
signatures and an extra bundle. -/
def piDemo4 : ParsedInputs Int :=
  ⟨Clvm.atom 1, [Clvm.atom 9], Clvm.atom 0, 55, [3, 4], [⟨[], 5⟩]⟩

/-- The transaction `demoE`'s wallet returns for `piDemo4` at amount 500. -/
def stDemo4 : SignedTx Int :=
  ⟨⟨[⟨⟨0, cat_ph_of piDemo4 500, 500⟩, Clvm.atom 0, Clvm.atom 0⟩], 0⟩⟩

/-- The eve coin of that transaction. -/
def eveDemo4 : Coin := ⟨0, cat_ph_of piDemo4 500, 500⟩

/-- Witness for C4 on the demonstration run. -/
theorem final_bundle_four_operands_witness :
    demoE.wallet (cat_ph_of piDemo4 500) 500 2 = .ok stDemo4
    ∧ (demoE.additions stDemo4.spend_bundle).filter
        (fun c => c.puzzle_hash == cat_ph_of piDemo4 500) = [eveDemo4]
    ∧ cli_core demoE piDemo4 500 2 false
      = .ok (.issued (get_tree_hash (curried_tail_of piDemo4))
          (SpendBundle.aggregate
            [stDemo4.spend_bundle, eve_spend_of piDemo4 500 eveDemo4,
             aggregated_spend_of piDemo4.bundles,
             ⟨[], aggregated_signature_of piDemo4.sigs⟩])) :=
  ⟨by decide, by decide,
   (final_bundle_four_operands demoE piDemo4 500 2 stDemo4 eveDemo4 []
     (by decide) (by decide)).1⟩

/-- Claim C8. In select-coin mode, whenever the wallet call succeeds, the
additions filter finds an eve coin and the removals filter finds the coin
whose name equals the eve coin's parent identifier, the pipeline's whole
output is that funding coin: it terminates without constructing any
issuance artifact (no spendable asset, genesis spend, or final bundle
enters the result). -/
theorem select_coin_early_exit {Sig : Type} [AddCommMonoid Sig]
    (E : Externals Sig) (pi : ParsedInputs Sig) (amount fee : Int)
    (st : SignedTx Sig) (eve : Coin) (evRest : List Coin)
    (prim : Coin) (prRest : List Coin)
    (hw : E.wallet (cat_ph_of pi amount) amount fee = .ok st)
    (he : (E.additions st.spend_bundle).filter
        (fun c => c.puzzle_hash == cat_ph_of pi amount) = eve :: evRest)
    (hp : (E.removals st.spend_bundle).filter
        (fun c => Coin.name c == eve.parent_coin_info) = prim :: prRest) :
    cli_core E pi amount fee true = .ok (.selected_coin prim) := by
  unfold cli_core
  rw [hw]
  dsimp only
  rw [he]
  dsimp only
  rw [hp]
  rfl

/-- Demonstration parsed inputs for the funding-coordinator scenarios. -/
def piDemo : ParsedInputs Int := ⟨Clvm.atom 1, [], Clvm.atom 0, 55, [], []⟩

/-- The wallet-selected funding coin of the select-coin demonstration. -/
def fundingCoinDemo : Coin := ⟨5, 6, 7⟩

/-- The eve coin whose parent identifier is the funding coin's name. -/
def eveCoinDemo : Coin := ⟨Coin.name fundingCoinDemo, cat_ph_of piDemo 1000, 1000⟩

/-- The empty transaction the demonstration wallets return. -/
def stEmpty : SignedTx Int := ⟨⟨[], 0⟩⟩

/-- Collaborators for the select-coin demonstration: the transaction's
created-coins set holds the eve coin, its consumed-coins set the funding
coin. -/
def Eselect : Externals Int :=
  ⟨demoAssemble, demoFromHex, demoFs, fun s => .ok s.data.length,
   fun s => .ok (Int.ofNat s.data.length), fun _ => .ok ⟨[], 0⟩,
   fun _ _ _ => .ok stEmpty, fun _ => [eveCoinDemo], fun _ => [fundingCoinDemo]⟩

/-- Witness for C8 on the select-coin demonstration. -/
theorem select_coin_early_exit_witness :
    Eselect.wallet (cat_ph_of piDemo 1000) 1000 0 = .ok stEmpty
    ∧ (Eselect.additions stEmpty.spend_bundle).filter
        (fun c => c.puzzle_hash == cat_ph_of piDemo 1000) = [eveCoinDemo]
    ∧ (Eselect.removals stEmpty.spend_bundle).filter
        (fun c => Coin.name c == eveCoinDemo.parent_coin_info) = [fundingCoinDemo]
    ∧ cli_core Eselect piDemo 1000 0 true = .ok (.selected_coin fundingCoinDemo) :=
  ⟨by decide, by decide, by decide,
   select_coin_early_exit Eselect piDemo 1000 0 stEmpty eveCoinDemo []
     fundingCoinDemo [] (by decide) (by decide) (by decide)⟩

/-- Two distinct coins both paying the wrapped puzzle hash. -/
def coinADemo : Coin := ⟨11, cat_ph_of piDemo 1000, 1000⟩

/-- A second coin at the same wrapped puzzle hash. -/
def coinBDemo : Coin := ⟨22, cat_ph_of piDemo 1000, 1000⟩

/-- Collaborators whose transaction creates two coins at the wrapped hash. -/
def EtwoEve : Externals Int :=
  ⟨demoAssemble, demoFromHex, demoFs, fun s => .ok s.data.length,
   fun s => .ok (Int.ofNat s.data.length), fun _ => .ok ⟨[], 0⟩,
   fun _ _ _ => .ok stEmpty, fun _ => [coinADemo, coinBDemo], fun _ => []⟩

/-- The same collaborators with only the first of those two coins. -/
def EoneEve : Externals Int :=
  ⟨demoAssemble, demoFromHex, demoFs, fun s => .ok s.data.length,
   fun s => .ok (Int.ofNat s.data.length), fun _ => .ok ⟨[], 0⟩,
   fun _ _ _ => .ok stEmpty, fun _ => [coinADemo], fun _ => []⟩

/-- Collaborators whose transaction creates no coin at the wrapped hash. -/
def EzeroEve : Externals Int :=
  ⟨demoAssemble, demoFromHex, demoFs, fun s => .ok s.data.length,
   fun s => .ok (Int.ofNat s.data.length), fun _ => .ok ⟨[], 0⟩,
   fun _ _ _ => .ok stEmpty, fun _ => [], fun _ => []⟩

/-- Claim C1, code behavior at the failing input. When the transaction's
created-coins set holds two coins at the wrapped puzzle hash, the pipeline
does not report any error: it proceeds to a successful issuance identical
to the one produced when only the first matching coin exists, silently
taking index 0 of the filtered list. Only the zero-match case aborts, and
it does so with a bare IndexError rather than a reported invariant
violation. -/
theorem eve_coin_multiplicity_unchecked :
    ((EtwoEve.additions stEmpty.spend_bundle).filter
        (fun c => c.puzzle_hash == cat_ph_of piDemo 1000)).length = 2
    ∧ (cli_core EtwoEve piDemo 1000 0 false).isOk = true
    ∧ cli_core EtwoEve piDemo 1000 0 false = cli_core EoneEve piDemo 1000 0 false
    ∧ cli_core EzeroEve piDemo 1000 0 false = .error .indexError := by
  exact ⟨by decide, by decide, by decide, by decide⟩
